import Mathlib

/-!
Verification development for the AccuLynx client's job cache subsystem
(`src/acculynx/cache.py`, with its facade in `src/acculynx/client.py` and the
job model in `src/acculynx/models.py`).

The embedding below translates the Python code directly:
* Python dicts built by repeated key assignment become association lists with
  an insert that overwrites the value of an existing key in place (preserving
  first-insertion order of keys, as CPython dicts do) and appends new keys.
* Python string truthiness (`if job.job_number`, `x and y`) is modelled
  explicitly: `None` and the empty string are falsy.
* `async` functions are pure state transformers; asyncio's cooperative
  scheduling means code between `await` points runs atomically, which is made
  explicit in the small-step concurrency models further down.
* Exceptions raised by the remote fetch are modelled with `Except`; the
  `while True` pagination loop of `refresh` receives explicit fuel (number of
  batch iterations), with `none` meaning the loop did not finish within the
  fuel.
-/

/-- The fields of `models.Job` (models.py lines 71-99) that the cache
subsystem reads: `id`, `job_number` (alias jobNumber, optional) and
`job_name` (alias jobName, optional).  The many remaining fields of the
pydantic model (contacts, addresses, dates, ...) are never consulted by
`cache.py` or the cached-search facade, so they are not part of the
embedding. -/
structure Job where
  id : String
  job_number : Option String
  job_name : Option String
  deriving DecidableEq, Repr

/-- A Python dict from string keys to jobs, as an association list in key
insertion order. -/
abbrev Dict := List (String × Job)

/-- Assigning `d[k] = v`: overwrite the value at an existing key in place,
otherwise append the new binding (CPython dict semantics). -/
def dictInsert (d : Dict) (k : String) (v : Job) : Dict :=
  if d.any (fun p => p.1 == k) then
    d.map (fun p => if p.1 == k then (k, v) else p)
  else
    d ++ [(k, v)]

/-- `d.get(k)`: the value bound to `k`, if any. -/
def dictGet (d : Dict) (k : String) : Option Job :=
  (d.find? (fun p => p.1 == k)).map (fun p => p.2)

/-- `d.values()`, in key insertion order. -/
def dictValues (d : Dict) : List Job :=
  d.map (fun p => p.2)

/-- Python truthiness of an optional string: `None` and `""` are falsy.
Used by `if job.job_number` (cache.py line 82) and by the short-circuit
conjunctions in `search` (lines 103-104). -/
def truthy : Option String → Bool
  | none => false
  | some s => !s.isEmpty

/-- `{job.id: job for job in jobs}` (cache.py line 81): later occurrences of
a key overwrite earlier ones. -/
def buildById (jobs : List Job) : Dict :=
  jobs.foldl (fun d j => dictInsert d j.id j) []

/-- `{job.job_number: job for job in jobs if job.job_number}` (cache.py
line 82): jobs with a falsy (absent or empty) number are skipped. -/
def buildByNumber (jobs : List Job) : Dict :=
  jobs.foldl (fun d j =>
    match j.job_number with
    | some n => if n.isEmpty then d else dictInsert d n j
    | none => d) []

/-- The mutable state of a `JobCache` instance (cache.py lines 14-16):
`_jobs`, `_jobs_by_number`, `_last_refresh`.  Timestamps are abstracted to
naturals. -/
structure JobCacheState where
  jobs : Dict
  jobs_by_number : Dict
  last_refresh : Option Nat
  deriving DecidableEq, Repr

/-- The state right after `__init__`: both dicts empty, no refresh yet. -/
def initCache : JobCacheState :=
  { jobs := [], jobs_by_number := [], last_refresh := none }

/-- `get_by_id` (cache.py lines 88-90): a plain dict read of `_jobs`,
taken without the lock. -/
def get_by_id (st : JobCacheState) (job_id : String) : Option Job :=
  dictGet st.jobs job_id

/-- `get_by_number` (cache.py lines 92-95): a dict read of
`_jobs_by_number` under the lock; the read itself is a single lookup. -/
def get_by_number (st : JobCacheState) (job_number : String) : Option Job :=
  dictGet st.jobs_by_number job_number

/-- Does the character list start with `sub`? (helper for Python's `in`). -/
def charsStartsWith : List Char → List Char → Bool
  | _, [] => true
  | [], _ :: _ => false
  | c :: cs, d :: ds => c == d && charsStartsWith cs ds

/-- Does the character list contain `sub` as a contiguous run? -/
def charsHasSub (sub : List Char) : List Char → Bool
  | [] => charsStartsWith [] sub
  | c :: cs => charsStartsWith (c :: cs) sub || charsHasSub sub cs

/-- Python's substring test `sub in s` on strings. -/
def strHasSub (s sub : String) : Bool :=
  charsHasSub sub.data s.data

/-- Lower-casing, Python's `str.lower` restricted to the ASCII mapping of
`Char.toLower`, applied characterwise. -/
def strLower (s : String) : String :=
  String.mk (s.data.map Char.toLower)

/-- The filter of `search` (cache.py lines 103-104), with `query` already
lower-cased: `(job.job_number and query in job.job_number.lower()) or
(job.job_name and query in job.job_name.lower())`.  The Python `and`
short-circuits on falsy (absent or empty) fields. -/
def searchPred (q : String) (job : Job) : Bool :=
  (truthy job.job_number &&
    strHasSub (strLower (job.job_number.getD "")) q) ||
  (truthy job.job_name &&
    strHasSub (strLower (job.job_name.getD "")) q)

/-- `search` (cache.py lines 97-105): lower-case the query, then filter the
values of `_jobs` (read under the lock) by `searchPred`. -/
def search (st : JobCacheState) (query : String) : List Job :=
  let q := strLower query
  (dictValues st.jobs).filter (searchPred q)

/-- The publish step of `refresh` (cache.py lines 80-83): under the lock,
replace both dicts from the single working list `jobs` and stamp
`_last_refresh`.  Every field of the prior state is overwritten. -/
def publish (now : Nat) (jobs : List Job) (_st : JobCacheState) :
    JobCacheState :=
  { jobs := buildById jobs
    jobs_by_number := buildByNumber jobs
    last_refresh := some now }

/-- An exception raised by a page fetch (`exceptions.AccuLynxAPIError`):
a message and an optional HTTP status code. -/
structure ApiError where
  message : String
  status_code : Option Nat
  deriving DecidableEq, Repr

/-- A remote job source: `api.get_jobs(page_size=25, page_start_index=i)`
either returns the page of jobs at offset `i` or raises.  Only the start
index varies in `refresh`, so the source is a function of it. -/
abbrev JobSource := Nat → Except ApiError (List Job)

/-- The page-start offsets of one batch of 25 concurrent requests
(cache.py lines 60-63): `start_index, start_index+25, ..., start_index+600`. -/
def batchOffsets (start_index : Nat) : List Nat :=
  (List.range 25).map (fun i => start_index + 25 * i)

/-- Issue one batch: `asyncio.gather(*tasks, return_exceptions=True)`
(line 65) — every task's outcome is collected, exceptions included. -/
def fetchBatch (api : JobSource) (start_index : Nat) :
    List (Except ApiError (List Job)) :=
  (batchOffsets start_index).map api

/-- The result-processing loop over one batch (cache.py lines 68-72):
extend `jobs` with every outcome that is a non-empty list and record in
`new_jobs_found` whether any such outcome existed; exceptions and empty
pages contribute nothing. -/
def processBatch (jobs : List Job)
    (job_lists : List (Except ApiError (List Job))) : List Job × Bool :=
  job_lists.foldl (fun acc r =>
    match r with
    | .ok job_list =>
        if job_list.isEmpty then acc else (acc.1 ++ job_list, true)
    | .error _ => acc) (jobs, false)

/-- The `while True` pagination loop of `refresh` (cache.py lines 59-78):
issue a batch of 25 pages, fold its results into the working list, advance
the start index by 25*25, and stop once a batch produced no new jobs.
`fuel` bounds the number of batch iterations; `none` means the loop was
still running when the fuel ran out. -/
def refreshLoop (api : JobSource) :
    Nat → Nat → List Job → Option (List Job)
  | 0, _, _ => none
  | fuel + 1, start_index, jobs =>
    if (processBatch jobs (fetchBatch api start_index)).2 then
      refreshLoop api fuel (start_index + 625)
        (processBatch jobs (fetchBatch api start_index)).1
    else some (processBatch jobs (fetchBatch api start_index)).1

/-- `refresh` (cache.py lines 49-86): fetch page 0; on success run the
batch loop from offset 25 and publish the collected list under the lock;
any exception of the first fetch is caught by the surrounding
`try/except`, which only logs, so the state is returned unchanged and no
failure propagates to the caller. -/
def refresh (api : JobSource) (fuel : Nat) (now : Nat)
    (st : JobCacheState) : Option JobCacheState :=
  match api 0 with
  | .error _ => some st
  | .ok initial_jobs =>
    match refreshLoop api fuel 25 initial_jobs with
    | none => none
    | some jobs => some (publish now jobs st)

/-- The page-start offsets issued by `k` consecutive batch iterations
starting at `start_index`: each iteration issues 25 offsets and advances by
625 (cache.py lines 61-63). -/
def loopOffsets (start_index : Nat) : Nat → List Nat
  | 0 => []
  | k + 1 => batchOffsets start_index ++ loopOffsets (start_index + 625) k

/-!
## Interleaving model of concurrent refresh passes (claim C1)

asyncio runs one task at a time between `await` points.  The body of the
`async with self._lock:` block (cache.py lines 81-83) contains no `await`,
so the two dict replacements and the timestamp assignment execute as one
indivisible step; the lock additionally serializes entry into that block.
A fetch (`await api.get_jobs(...)` / `await asyncio.gather(...)`) only
extends the pass-local working list `jobs`.  The model therefore has, for
any number of concurrently running `refresh` passes, three kinds of steps:
starting a pass, a pass accumulating fetched records into its own working
list, and a pass atomically publishing its working list.
-/

/-- Global state: the shared cache plus the private working list of every
in-flight `refresh` pass. -/
structure SysState where
  cache : JobCacheState
  pending : List (List Job)

/-- One scheduler step of the system of concurrent refresh passes. -/
inductive SysStep : SysState → SysState → Prop
  /-- A new `refresh` call begins, with an empty working list. -/
  | spawn (s : SysState) :
      SysStep s { s with pending := s.pending ++ [[]] }
  /-- Pass `i` completes a page fetch and extends its working list
  (cache.py lines 55 and 71); the shared cache is untouched. -/
  | fetch (s : SysState) (i : Nat) (page : List Job)
      (h : i < s.pending.length) :
      SysStep s { s with pending := s.pending.set i (s.pending.get ⟨i, h⟩ ++ page) }
  /-- Pass `i` reaches the lock and publishes its working list as one
  atomic step (cache.py lines 80-83), then finishes. -/
  | publishStep (s : SysState) (i : Nat) (now : Nat)
      (h : i < s.pending.length) :
      SysStep s { cache := publish now (s.pending.get ⟨i, h⟩) s.cache,
                  pending := s.pending.eraseIdx i }

/-- The initial system: a fresh cache, no refresh pass running. -/
def initSys : SysState :=
  { cache := initCache, pending := [] }

/-- States reachable by any interleaving of concurrent refresh passes. -/
def SysReachable (s : SysState) : Prop :=
  Relation.ReflTransGen SysStep initSys s

/-!
## Outstanding-request model (claim C6)

Seen from the remote source, one `refresh` pass alternates between having
1 outstanding request (the awaited initial fetch, cache.py line 54),
0 outstanding (between batches), and 25 outstanding (the awaited
`asyncio.gather` of one batch, line 65).  `self._rate_limit =
Semaphore(25)` is created at line 20 but never acquired anywhere, so
nothing couples the phases of two overlapping passes.
-/

/-- The request-issuing phase of one `refresh` pass. -/
inductive FetchPhase
  | idle
  | initial_in_flight
  | between_batches
  | batch_in_flight
  | finished
  deriving DecidableEq, Repr

/-- Requests outstanding at the remote source for a pass in this phase. -/
def outstanding : FetchPhase → Nat
  | .initial_in_flight => 1
  | .batch_in_flight => 25
  | _ => 0

/-- Phase transitions of one `refresh` pass, following cache.py lines
49-78: issue the initial fetch, await it, then repeatedly issue a batch of
25 and await the gather, until a batch finds nothing new. -/
inductive PhaseStep : FetchPhase → FetchPhase → Prop
  | start : PhaseStep .idle .initial_in_flight
  | initial_done : PhaseStep .initial_in_flight .between_batches
  | issue_batch : PhaseStep .between_batches .batch_in_flight
  | batch_done_continue : PhaseStep .batch_in_flight .between_batches
  | batch_done_exhausted : PhaseStep .batch_in_flight .finished

/-- Two refresh passes (e.g. a manual `refresh` and the background loop's)
interleave freely: each scheduler step advances one of them. -/
inductive PairStep :
    FetchPhase × FetchPhase → FetchPhase × FetchPhase → Prop
  | left {a a' b : FetchPhase} : PhaseStep a a' → PairStep (a, b) (a', b)
  | right {a b b' : FetchPhase} : PhaseStep b b' → PairStep (a, b) (a, b')

/-- Phase configurations reachable with two concurrent refresh passes. -/
def PairReachable (c : FetchPhase × FetchPhase) : Prop :=
  Relation.ReflTransGen PairStep (.idle, .idle) c

/-!
## Background-loop lifecycle model (claim C7)

`start_refresh_task` (cache.py lines 22-24) unconditionally calls
`asyncio.create_task(self._periodic_refresh(api))` and overwrites
`self._refresh_task` with the new task.  A previously running loop is not
cancelled; only the reference to it is lost, and the event loop keeps
driving it (`_periodic_refresh` loops forever, lines 36-40).
`stop_refresh_task` (lines 26-34) cancels only the task currently held in
`self._refresh_task`.  Tasks are numbered so they can be told apart. -/
structure EngineState where
  running_loops : List Nat
  refresh_task : Option Nat
  next_id : Nat
  deriving DecidableEq, Repr

/-- The engine after `__init__`: no loop running, `_refresh_task = None`. -/
def initEngine : EngineState :=
  { running_loops := [], refresh_task := none, next_id := 0 }

/-- `start_refresh_task` (cache.py lines 22-24): create a new
`_periodic_refresh` task (it starts running) and overwrite the reference;
the prior task is neither cancelled nor awaited. -/
def start_refresh_task (e : EngineState) : EngineState :=
  { running_loops := e.running_loops ++ [e.next_id]
    refresh_task := some e.next_id
    next_id := e.next_id + 1 }

/-- `stop_refresh_task` (cache.py lines 26-34): if a task reference is
held, cancel that task, await it (swallowing `CancelledError`) and clear
the reference; with no reference it does nothing. -/
def stop_refresh_task (e : EngineState) : EngineState :=
  match e.refresh_task with
  | some t =>
      { running_loops := e.running_loops.filter (fun x => x != t)
        refresh_task := none
        next_id := e.next_id }
  | none => e

/-!
## The async facade (claim C9)

An `async def` in Python is a function that, applied, returns a coroutine
object; `await` runs it to its return value.  `Coro` makes the extra layer
explicit so that a missing `await` is visible in the types. -/
structure Coro (α : Type) where
  run : α
  deriving DecidableEq, Repr

/-- Calling the async method `JobCache.search` (cache.py line 97) yields a
coroutine; awaiting it runs lines 99-105. -/
def searchAsync (st : JobCacheState) (query : String) : Coro (List Job) :=
  ⟨search st query⟩

/-- `AccuLynxAPI.search_jobs_cached` (client.py lines 117-119):
`return self.job_cache.search(query)` — the body returns the coroutine
produced by calling `search` without awaiting it, so awaiting the facade
yields that coroutine object, not the `List[Job]` its annotation
declares. -/
def search_jobs_cached (st : JobCacheState) (query : String) :
    Coro (Coro (List Job)) :=
  ⟨searchAsync st query⟩

/-!
## Concrete fixtures used by witnesses and counterexamples
-/

/-- A populated pair of sample jobs. -/
def jobA : Job := { id := "a", job_number := some "A-1", job_name := some "Alpha" }

/-- Second sample job. -/
def jobB : Job := { id := "b", job_number := some "B-2", job_name := some "Beta" }

/-- A job whose number and display name are both absent. -/
def jobBare : Job := { id := "n", job_number := none, job_name := none }

/-- A job findable by search. -/
def jobNum : Job := { id := "m", job_number := some "BNX-1", job_name := none }

/-- A job whose number is the empty string and whose name is absent:
Python treats both fields as falsy. -/
def jobEmptyNum : Job := { id := "e", job_number := some "", job_name := none }

/-- Two distinct records sharing one id but carrying different numbers,
as two overlapping fetched pages could produce. -/
def dupJobs : List Job :=
  [ { id := "1", job_number := some "X", job_name := some "Alpha" },
    { id := "1", job_number := some "Y", job_name := some "Beta" } ]

/-- A source whose every fetch, the first included, raises. -/
def apiDown : JobSource := fun _ => .error { message := "boom", status_code := some 500 }

/-- A populated snapshot S, for the first-page-abort claim. -/
def stPop : JobCacheState := publish 3 [jobA, jobB] initCache

/-- Page contents of a small stable source: page 0 holds `jobA`, the page
at offset 25 holds `jobB`, everything else is empty. -/
def pagesSmall : Nat → List Job := fun off =>
  if off = 0 then [jobA] else if off = 25 then [jobB] else []

/-- The small source with a single failing page at offset 50; every other
page fetch succeeds. -/
def apiOneFail : JobSource := fun i =>
  if i = 50 then .error { message := "503", status_code := some 503 }
  else .ok (pagesSmall i)

/-- The i-th of the 37 scenario jobs. -/
def mkJob (i : Nat) : Job :=
  { id := toString i, job_number := some ("N" ++ toString i), job_name := none }

/-- The 37-job remote collection of the scenario, paged by 25: page 0 has
jobs 0-24, the page at offset 25 has jobs 25-36, all later pages are
empty. -/
def pages37 : Nat → List Job := fun off =>
  if off = 0 then (List.range 25).map mkJob
  else if off = 25 then (List.range 12).map (fun i => mkJob (25 + i))
  else []

/-- The stable 37-job source: every page fetch succeeds. -/
def api37 : JobSource := fun i => .ok (pages37 i)

/-- All 37 scenario jobs in collection order. -/
def jobs37 : List Job := (List.range 37).map mkJob

/-- A system state in which one refresh pass has published `[jobA]`. -/
def sysPublished : SysState :=
  { cache := publish 5 [jobA] initCache, pending := [] }

/-!
## Claim-side predicates and batch descriptions

`claimMatches` renders the search claim's own words ("job number or display
name contains q as a case-insensitive substring") for comparison with the
code's `searchPred`; `amendedMatches` is the amended version restricted to
non-empty fields.  `okPage`/`pagesConcat`/`okRecords`/`anyNew` describe,
independently of the loop, what a batch of fetch outcomes contributes. -/
def claimMatches (q : String) (job : Job) : Bool :=
  (match job.job_number with
   | some n => strHasSub (strLower n) (strLower q)
   | none => false) ||
  (match job.job_name with
   | some nm => strHasSub (strLower nm) (strLower q)
   | none => false)

/-- The amended matching predicate: a present and non-empty job number, or
a present and non-empty display name, contains the query as a
case-insensitive substring. -/
def amendedMatches (q : String) (job : Job) : Bool :=
  (match job.job_number with
   | some n => !n.isEmpty && strHasSub (strLower n) (strLower q)
   | none => false) ||
  (match job.job_name with
   | some nm => !nm.isEmpty && strHasSub (strLower nm) (strLower q)
   | none => false)

/-- The records a single page fetch contributes: its list on success,
nothing on failure. -/
def okPage (api : JobSource) (i : Nat) : List Job :=
  match api i with
  | .ok l => l
  | .error _ => []

/-- Concatenation of the pages at the given offsets. -/
def pagesConcat (f : Nat → List Job) : List Nat → List Job
  | [] => []
  | i :: rest => f i ++ pagesConcat f rest

/-- The records contributed by a list of fetch outcomes: successful pages
concatenated in order, failed pages skipped. -/
def okRecords : List (Except ApiError (List Job)) → List Job
  | [] => []
  | .ok l :: rest => l ++ okRecords rest
  | .error _ :: rest => okRecords rest

/-- Whether a list of fetch outcomes contains a successful non-empty page
(the `new_jobs_found` flag of cache.py lines 68-72). -/
def anyNew : List (Except ApiError (List Job)) → Bool
  | [] => false
  | .ok l :: rest => !l.isEmpty || anyNew rest
  | .error _ :: rest => anyNew rest

/-!
# Helper lemmas
-/

/-- A job with neither number nor display name never passes the search
filter. -/
theorem searchPred_both_none (q : String) (j : Job)
    (h1 : j.job_number = none) (h2 : j.job_name = none) :
    searchPred q j = false := by
  simp [searchPred, h1, h2, truthy]

/-- The code's search filter, applied to the lower-cased query, agrees
with the amended claim predicate. -/
theorem searchPred_eq_amendedMatches (q : String) (j : Job) :
    searchPred (strLower q) j = amendedMatches q j := by
  unfold searchPred amendedMatches
  cases hn : j.job_number <;> cases hm : j.job_name <;>
    simp [truthy, Option.getD]

/-- Membership in a search result, unfolded to the filter. -/
theorem mem_search_iff (st : JobCacheState) (q : String) (j : Job) :
    j ∈ search st q ↔
      j ∈ dictValues st.jobs ∧ searchPred (strLower q) j = true := by
  unfold search
  exact List.mem_filter

/-- An element of `dictInsert d k v` is the new binding or an old binding
at a different key. -/
theorem mem_dictInsert {p : String × Job} {d : Dict} {k : String}
    {v : Job} (h : p ∈ dictInsert d k v) :
    p = (k, v) ∨ (p ∈ d ∧ p.1 ≠ k) := by
  unfold dictInsert at h
  by_cases hany : d.any (fun q => q.1 == k)
  · rw [if_pos hany] at h
    obtain ⟨q, hq, heq⟩ := List.mem_map.mp h
    by_cases hk : q.1 == k
    · rw [if_pos hk] at heq
      exact Or.inl heq.symm
    · rw [if_neg hk] at heq
      subst heq
      exact Or.inr ⟨hq, by simpa using hk⟩
  · rcases List.mem_append.mp (by rw [if_neg hany] at h; exact h) with h1 | h2
    · refine Or.inr ⟨h1, ?_⟩
      intro hcontra
      exact hany (List.any_eq_true.mpr ⟨p, h1, by simp [hcontra]⟩)
    · exact Or.inl (by simpa using h2)

/-- The inserted binding is an element of `dictInsert d k v`. -/
theorem self_mem_dictInsert (d : Dict) (k : String) (v : Job) :
    (k, v) ∈ dictInsert d k v := by
  unfold dictInsert
  by_cases hany : d.any (fun q => q.1 == k)
  · rw [if_pos hany]
    obtain ⟨q, hq, hk⟩ := List.any_eq_true.mp hany
    exact List.mem_map.mpr ⟨q, hq, by rw [if_pos hk]⟩
  · rw [if_neg hany]
    exact List.mem_append.mpr (Or.inr (by simp))

/-- Bindings at other keys survive `dictInsert`. -/
theorem mem_dictInsert_of_ne {p : String × Job} {d : Dict} (k : String)
    (v : Job) (hp : p ∈ d) (hne : p.1 ≠ k) : p ∈ dictInsert d k v := by
  unfold dictInsert
  by_cases hany : d.any (fun q => q.1 == k)
  · rw [if_pos hany]
    refine List.mem_map.mpr ⟨p, hp, ?_⟩
    rw [if_neg (by simpa using hne)]
  · rw [if_neg hany]
    exact List.mem_append.mpr (Or.inl hp)

/-- Through the id-keyed insertion fold, a job whose id determines it
uniquely ends up bound to its id.  The accumulator `d` must be keyed by
ids and consistent with the remaining jobs. -/
theorem pair_mem_foldl_insert :
    ∀ (todo : List Job) (d : Dict),
      (∀ p ∈ d, p.1 = p.2.id) →
      (∀ p ∈ d, ∀ y ∈ todo, p.2.id = y.id → p.2 = y) →
      (∀ x ∈ todo, ∀ y ∈ todo, x.id = y.id → x = y) →
      ∀ j : Job, (j ∈ todo ∨ (j.id, j) ∈ d) →
        (j.id, j) ∈ todo.foldl (fun d j => dictInsert d j.id j) d := by
  intro todo
  induction todo with
  | nil =>
    intro d _ _ _ j hj
    rcases hj with h | h
    · cases h
    · exact h
  | cons x rest ih =>
    intro d hv hcons hfun j hj
    simp only [List.foldl_cons]
    apply ih (dictInsert d x.id x)
    · intro p hp
      rcases mem_dictInsert hp with rfl | ⟨hpd, _⟩
      · rfl
      · exact hv p hpd
    · intro p hp y hy hid
      rcases mem_dictInsert hp with rfl | ⟨hpd, _⟩
      · exact hfun x (by simp) y (by simp [hy]) hid
      · exact hcons p hpd y (by simp [hy]) hid
    · intro a ha b hb
      exact hfun a (by simp [ha]) b (by simp [hb])
    · rcases hj with hj | hj
      · rcases List.mem_cons.mp hj with rfl | hjr
        · exact Or.inr (self_mem_dictInsert d j.id j)
        · exact Or.inl hjr
      · by_cases hid : j.id = x.id
        · have hx : j = x := hcons (j.id, j) hj x (by simp) hid
          refine Or.inr ?_
          rw [show x = j from hx.symm]
          exact self_mem_dictInsert d j.id j
        · exact Or.inr (mem_dictInsert_of_ne _ _ hj hid)

/-- If no two fetched records carry the same id with different contents,
every fetched job is a value of the id index. -/
theorem mem_values_buildById (jobs : List Job)
    (hfun : ∀ x ∈ jobs, ∀ y ∈ jobs, x.id = y.id → x = y) :
    ∀ j ∈ jobs, j ∈ dictValues (buildById jobs) := by
  intro j hj
  have h := pair_mem_foldl_insert jobs []
    (by intro p hp; cases hp)
    (by intro p hp; cases hp)
    hfun j (Or.inl hj)
  exact List.mem_map.mpr ⟨(j.id, j), h, rfl⟩

/-- Every value of the number-keyed fold comes from the accumulator or
from the fetched list. -/
theorem values_buildByNumber_subset :
    ∀ (todo : List Job) (d : Dict) (j : Job),
      j ∈ dictValues (todo.foldl (fun d j =>
        match j.job_number with
        | some n => if n.isEmpty then d else dictInsert d n j
        | none => d) d) →
      j ∈ dictValues d ∨ j ∈ todo := by
  intro todo
  induction todo with
  | nil =>
    intro d j h
    exact Or.inl h
  | cons x rest ih =>
    intro d j h
    simp only [List.foldl_cons] at h
    cases hx : x.job_number with
    | none =>
      rw [hx] at h
      rcases ih d j h with hd | hr
      · exact Or.inl hd
      · exact Or.inr (List.mem_cons.mpr (Or.inr hr))
    | some n =>
      rw [hx] at h
      replace h : j ∈ dictValues (rest.foldl (fun d j =>
          match j.job_number with
          | some n => if n.isEmpty then d else dictInsert d n j
          | none => d) (if n.isEmpty then d else dictInsert d n x)) := h
      by_cases hn : n.isEmpty
      · rw [if_pos hn] at h
        rcases ih d j h with hd | hr
        · exact Or.inl hd
        · exact Or.inr (List.mem_cons.mpr (Or.inr hr))
      · rw [if_neg hn] at h
        rcases ih _ j h with hd | hr
        · obtain ⟨p, hp, hpj⟩ := List.mem_map.mp hd
          rcases mem_dictInsert hp with rfl | ⟨hpd, _⟩
          · exact Or.inr (List.mem_cons.mpr (Or.inl (by rw [← hpj])))
          · exact Or.inl (List.mem_map.mpr ⟨p, hpd, hpj⟩)
        · exact Or.inr (List.mem_cons.mpr (Or.inr hr))

/-- Claim C4, counterexample: a fetched list in which one id occurs twice
with different contents yields a published snapshot whose `by_number` holds
a job that is not a value of `by_id` — the id comprehension kept only the
last record with that id, while the number comprehension kept both under
their distinct numbers. -/
theorem C4_counterexample :
    ¬ (∀ j ∈ dictValues (publish 0 dupJobs initCache).jobs_by_number,
        j ∈ dictValues (publish 0 dupJobs initCache).jobs) := by
  decide

/-- Claim C4 as amended: for every published snapshot whose fetched list
contains no two records sharing an id with different contents (duplicate
occurrences of the identical record, and duplicate numbers across distinct
ids, remain allowed), every job in `by_number` is also a value of
`by_id`. -/
theorem C4_amended_number_id_consistency (now : Nat) (jobs : List Job)
    (st : JobCacheState)
    (hfun : ∀ x ∈ jobs, ∀ y ∈ jobs, x.id = y.id → x = y) :
    ∀ j ∈ dictValues (publish now jobs st).jobs_by_number,
      j ∈ dictValues (publish now jobs st).jobs := by
  intro j hj
  have hjobs : j ∈ jobs := by
    rcases values_buildByNumber_subset jobs [] j hj with h | h
    · cases h
    · exact h
  exact mem_values_buildById jobs hfun j hjobs

/-- Witness for C4 (amended) on a duplicate-free fetched list. -/
theorem C4_witness :
    jobA ∈ dictValues (publish 3 [jobA, jobB] initCache).jobs :=
  C4_amended_number_id_consistency 3 [jobA, jobB] initCache (by decide)
    jobA (by decide)

/-- Folding the batch-processing step: the working list is extended by
exactly the records of the successful pages, and the flag records whether
any successful page was non-empty. -/
theorem processBatch_foldl (rs : List (Except ApiError (List Job))) :
    ∀ (jobs : List Job) (b : Bool),
      rs.foldl (fun acc r =>
        match r with
        | .ok job_list =>
            if job_list.isEmpty then acc else (acc.1 ++ job_list, true)
        | .error _ => acc) (jobs, b)
      = (jobs ++ okRecords rs, b || anyNew rs) := by
  induction rs with
  | nil =>
    intro jobs b
    simp [okRecords, anyNew]
  | cons r rest ih =>
    intro jobs b
    cases r with
    | ok l =>
      cases l with
      | nil =>
        simpa [okRecords, anyNew] using ih jobs b
      | cons a as =>
        show rest.foldl _ (jobs ++ (a :: as), true) = _
        rw [ih]
        simp [okRecords, anyNew, List.append_assoc]
    | error e =>
      simpa [okRecords, anyNew] using ih jobs b

/-- `processBatch` in closed form. -/
theorem processBatch_eq (jobs : List Job)
    (rs : List (Except ApiError (List Job))) :
    processBatch jobs rs = (jobs ++ okRecords rs, anyNew rs) := by
  unfold processBatch
  rw [processBatch_foldl]
  simp

/-- The records of a batch of fetches, page by page. -/
theorem okRecords_map (api : JobSource) :
    ∀ offs : List Nat,
      okRecords (offs.map api) = pagesConcat (okPage api) offs := by
  intro offs
  induction offs with
  | nil => rfl
  | cons i rest ih =>
    cases hi : api i with
    | ok l => simp [okRecords, pagesConcat, okPage, hi, ih]
    | error e => simp [okRecords, pagesConcat, okPage, hi, ih]

/-- The new-jobs flag of a batch of fetches, page by page. -/
theorem anyNew_map (api : JobSource) :
    ∀ offs : List Nat,
      anyNew (offs.map api)
        = offs.any (fun i => !(okPage api i).isEmpty) := by
  intro offs
  induction offs with
  | nil => rfl
  | cons i rest ih =>
    cases hi : api i with
    | ok l => simp [anyNew, okPage, hi, ih]
    | error e => simp [anyNew, okPage, hi, ih]

/-- `pagesConcat` distributes over offset concatenation. -/
theorem pagesConcat_append (f : Nat → List Job) :
    ∀ a b : List Nat,
      pagesConcat f (a ++ b) = pagesConcat f a ++ pagesConcat f b := by
  intro a b
  induction a with
  | nil => rfl
  | cons i rest ih => simp [pagesConcat, ih, List.append_assoc]

/-- Every offset of a batch is at least its start index. -/
theorem mem_batchOffsets_le (s i : Nat) (h : i ∈ batchOffsets s) :
    s ≤ i := by
  unfold batchOffsets at h
  obtain ⟨m, _, rfl⟩ := List.mem_map.mp h
  omega

/-- Whenever the pagination loop returns, its result is the input list
followed by exactly the records of the successful pages among the offsets
of the `k` batches it issued. -/
theorem refreshLoop_some (api : JobSource) :
    ∀ (fuel s : Nat) (jobs out : List Job),
      refreshLoop api fuel s jobs = some out →
      ∃ k, 1 ≤ k ∧ k ≤ fuel ∧
        out = jobs ++ pagesConcat (okPage api) (loopOffsets s k) := by
  intro fuel
  induction fuel with
  | zero =>
    intro s jobs out h
    exact absurd h (by simp [refreshLoop])
  | succ fuel ih =>
    intro s jobs out h
    rw [show refreshLoop api (fuel + 1) s jobs
        = if (processBatch jobs (fetchBatch api s)).2 then
            refreshLoop api fuel (s + 625)
              (processBatch jobs (fetchBatch api s)).1
          else some (processBatch jobs (fetchBatch api s)).1 from rfl] at h
    rw [processBatch_eq, show fetchBatch api s = (batchOffsets s).map api
        from rfl, okRecords_map] at h
    by_cases hfound : anyNew ((batchOffsets s).map api)
    · rw [if_pos (by simpa using hfound)] at h
      obtain ⟨k, hk1, hk2, hout⟩ := ih (s + 625) _ out h
      refine ⟨k + 1, by omega, by omega, ?_⟩
      rw [hout, show loopOffsets s (k + 1)
          = batchOffsets s ++ loopOffsets (s + 625) k from rfl,
        pagesConcat_append, List.append_assoc]
    · rw [if_neg (by simpa using hfound)] at h
      injection h with h'
      refine ⟨1, le_refl 1, by omega, ?_⟩
      rw [← h', show loopOffsets s 1
          = batchOffsets s ++ loopOffsets (s + 625) 0 from rfl]
      simp [loopOffsets, pagesConcat_append, pagesConcat]

/-- If every page at or beyond offset `N` contributes nothing (it is empty
or its fetch fails), the pagination loop terminates once given enough fuel
to reach `N`. -/
theorem refreshLoop_total (api : JobSource) (N : Nat)
    (hquiet : ∀ i, N ≤ i → (okPage api i).isEmpty = true) :
    ∀ (fuel s : Nat) (jobs : List Job),
      (∃ j, j < fuel ∧ N ≤ s + 625 * j) →
      ∃ out, refreshLoop api fuel s jobs = some out := by
  intro fuel
  induction fuel with
  | zero =>
    intro s jobs hex
    obtain ⟨j, hj, _⟩ := hex
    omega
  | succ fuel ih =>
    intro s jobs hex
    obtain ⟨j, hj, hjN⟩ := hex
    rw [show refreshLoop api (fuel + 1) s jobs
        = if (processBatch jobs (fetchBatch api s)).2 then
            refreshLoop api fuel (s + 625)
              (processBatch jobs (fetchBatch api s)).1
          else some (processBatch jobs (fetchBatch api s)).1 from rfl]
    by_cases hfound : (processBatch jobs (fetchBatch api s)).2
    · by_cases hz : j = 0
      · exfalso
        subst hz
        have hNs : N ≤ s := by omega
        have hflag : (processBatch jobs (fetchBatch api s)).2 = false := by
          rw [processBatch_eq]
          show anyNew (fetchBatch api s) = false
          rw [show fetchBatch api s = (batchOffsets s).map api from rfl,
            anyNew_map]
          rw [List.any_eq_false]
          intro i hi
          have hsi : s ≤ i := mem_batchOffsets_le s i hi
          simp [hquiet i (le_trans hNs hsi)]
        rw [hflag] at hfound
        exact Bool.false_ne_true hfound
      · obtain ⟨out, hout⟩ := ih (s + 625) _ ⟨j - 1, by omega, by omega⟩
        exact ⟨out, by rw [if_pos hfound]; exact hout⟩
    · exact ⟨_, by rw [if_neg hfound]⟩

/-- When every page fetch other than the one at offset `f` succeeds, a
batch contributes exactly the pages at its offsets with `f` filtered
out. -/
theorem pagesConcat_okPage_filter (api : JobSource)
    (pages : Nat → List Job) (f : Nat) (e : ApiError)
    (hfail : api f = .error e)
    (hok : ∀ i, i ≠ f → api i = .ok (pages i)) :
    ∀ offs : List Nat,
      pagesConcat (okPage api) offs
        = pagesConcat pages (offs.filter (fun i => i != f)) := by
  intro offs
  induction offs with
  | nil => rfl
  | cons i rest ih =>
    by_cases hif : i = f
    · subst hif
      simp [pagesConcat, okPage, hfail, ih]
    · simp [pagesConcat, okPage, hok i hif, ih, hif]

/-- Claim C3: with exactly one failing page fetch (at offset `f`) and all
other pages succeeding against a source that is empty from offset `N` on,
`refresh` completes normally — the failure is absorbed inside the batch —
and publishes exactly the records of all successfully fetched pages: page
0 followed by the pages at the issued batch offsets with the failed page
contributing nothing. -/
theorem C3_single_page_failure (api : JobSource) (pages : Nat → List Job)
    (f N fuel now : Nat) (e : ApiError) (st : JobCacheState)
    (hf0 : f ≠ 0)
    (hfail : api f = .error e)
    (hok : ∀ i, i ≠ f → api i = .ok (pages i))
    (hN : ∀ i, N ≤ i → pages i = [])
    (hfuel : ∃ j, j < fuel ∧ N ≤ 25 + 625 * j) :
    ∃ st' k, refresh api fuel now st = some st' ∧
      st' = publish now
        (pages 0 ++ pagesConcat pages
          ((loopOffsets 25 k).filter (fun i => i != f))) st := by
  have h0 : api 0 = .ok (pages 0) := hok 0 (fun h => hf0 h.symm)
  have hquiet : ∀ i, N ≤ i → (okPage api i).isEmpty = true := by
    intro i hi
    by_cases hif : i = f
    · subst hif
      simp [okPage, hfail]
    · simp [okPage, hok i hif, hN i hi]
  obtain ⟨out, hout⟩ := refreshLoop_total api N hquiet fuel 25 (pages 0) hfuel
  obtain ⟨k, _, _, hout_eq⟩ := refreshLoop_some api fuel 25 (pages 0) out hout
  refine ⟨publish now out st, k, ?_, ?_⟩
  · simp [refresh, h0, hout]
  · rw [hout_eq, pagesConcat_okPage_filter api pages f e hfail hok]

/-- Witness for C3: the small two-page source with its only failure at
offset 50 refreshes to a published snapshot of the two fetched jobs. -/
theorem C3_witness :
    ∃ st' k, refresh apiOneFail 2 7 initCache = some st' ∧
      st' = publish 7
        (pagesSmall 0 ++ pagesConcat pagesSmall
          ((loopOffsets 25 k).filter (fun i => i != 50))) initCache := by
  apply C3_single_page_failure apiOneFail pagesSmall 50 26 2 7
    { message := "503", status_code := some 503 } initCache
  · decide
  · rfl
  · intro i hi
    simp [apiOneFail, hi]
  · intro i hi
    have h0 : i ≠ 0 := by omega
    have h25 : i ≠ 25 := by omega
    simp [pagesSmall, h0, h25]
  · exact ⟨1, by omega, by omega⟩

/-- Claim C1: in every state reachable under any interleaving of
concurrent refresh passes, the published pair of indices comes entirely
from one single pass's working list (or is still the initial empty pair):
`get_by_id` and `get_by_number` therefore always observe mappings derived
from one completed refresh pass, never a mixture of two passes, because
the publish step (cache.py lines 80-83) runs as one critical section with
no suspension point inside. -/
theorem C1_snapshot_from_single_pass (s : SysState)
    (h : SysReachable s) :
    (s.cache.jobs = [] ∧ s.cache.jobs_by_number = [] ∧
      s.cache.last_refresh = none) ∨
    ∃ now l, s.cache.jobs = buildById l ∧
      s.cache.jobs_by_number = buildByNumber l ∧
      s.cache.last_refresh = some now := by
  induction h with
  | refl =>
    exact Or.inl ⟨rfl, rfl, rfl⟩
  | tail hsteps hstep ih =>
    cases hstep with
    | spawn => exact ih
    | fetch i page hlen => exact ih
    | publishStep i now hlen =>
      exact Or.inr ⟨now, _, rfl, rfl, rfl⟩

/-- Witness for C1: the state reached by spawning one refresh pass,
letting it fetch `[jobA]`, and publishing, satisfies the single-pass
property. -/
theorem C1_witness :
    (sysPublished.cache.jobs = [] ∧
      sysPublished.cache.jobs_by_number = [] ∧
      sysPublished.cache.last_refresh = none) ∨
    ∃ now l, sysPublished.cache.jobs = buildById l ∧
      sysPublished.cache.jobs_by_number = buildByNumber l ∧
      sysPublished.cache.last_refresh = some now := by
  apply C1_snapshot_from_single_pass
  have h1 : SysStep initSys { cache := initCache, pending := [[]] } :=
    SysStep.spawn initSys
  have h2 : SysStep { cache := initCache, pending := [[]] }
      { cache := initCache, pending := [[jobA]] } :=
    SysStep.fetch { cache := initCache, pending := [[]] } 0 [jobA]
      (by decide)
  have h3 : SysStep { cache := initCache, pending := [[jobA]] }
      sysPublished :=
    SysStep.publishStep { cache := initCache, pending := [[jobA]] } 0 5
      (by decide)
  exact ((Relation.ReflTransGen.refl.tail h1).tail h2).tail h3

/-!
# Claims
-/

/-- Claim C2: if the very first page fetch raises, `refresh` returns
normally (the surrounding try/except catches everything) and the
published snapshot is untouched: `get_by_id`, `get_by_number` and
`search` afterwards behave exactly as before, and `last_refresh` is
unchanged.  This holds for the empty state and for any populated state. -/
theorem C2_first_page_failure_preserves_state (api : JobSource)
    (fuel now : Nat) (st : JobCacheState) (e : ApiError)
    (h : api 0 = .error e) :
    refresh api fuel now st = some st ∧
    ∀ st', refresh api fuel now st = some st' →
      (∀ i, get_by_id st' i = get_by_id st i) ∧
      (∀ n, get_by_number st' n = get_by_number st n) ∧
      (∀ q, search st' q = search st q) ∧
      st'.last_refresh = st.last_refresh := by
  have hr : refresh api fuel now st = some st := by
    simp [refresh, h]
  refine ⟨hr, ?_⟩
  intro st' h'
  rw [hr] at h'
  injection h' with h''
  subst h''
  exact ⟨fun _ => rfl, fun _ => rfl, fun _ => rfl, rfl⟩

/-- Witness for C2 at a concrete populated state and a concrete failing
source. -/
theorem C2_witness : refresh apiDown 5 7 stPop = some stPop :=
  (C2_first_page_failure_preserves_state apiDown 5 7 stPop
    { message := "boom", status_code := some 500 } rfl).1

/-- Claim C5: for the stable 37-job source with page size 25, `refresh`
gets 25 jobs from page 0, issues the batch of 25 concurrent fetches at
offsets 25,50,...,625 which yields the remaining 12 jobs and otherwise
empty pages, detects that no jobs exist beyond those 12 (the following
batch at offset 650 finds nothing new), and publishes a snapshot of
exactly 37 jobs. -/
theorem C5_scenario_37_jobs :
    pages37 0 = (List.range 25).map mkJob ∧
    (pages37 0).length = 25 ∧
    batchOffsets 25 = [25, 50, 75, 100, 125, 150, 175, 200, 225, 250, 275,
      300, 325, 350, 375, 400, 425, 450, 475, 500, 525, 550, 575, 600,
      625] ∧
    (processBatch [] (fetchBatch api37 25)).1.length = 12 ∧
    (processBatch [] (fetchBatch api37 25)).2 = true ∧
    anyNew (fetchBatch api37 650) = false ∧
    refresh api37 2 0 initCache = some (publish 0 jobs37 initCache) ∧
    (dictValues (publish 0 jobs37 initCache).jobs).length = 37 := by
  decide

/-- Claim C6 (code bug): the admission-control semaphore
`self._rate_limit = Semaphore(25)` (cache.py line 20) is never acquired,
so nothing bounds the total number of outstanding page fetches across
overlapping refresh passes: with two passes both awaiting a batch gather,
50 requests are outstanding, exceeding the claimed ceiling of 25. -/
theorem C6_overlapping_refreshes_exceed_limit :
    ∃ c : FetchPhase × FetchPhase,
      PairReachable c ∧ 25 < outstanding c.1 + outstanding c.2 := by
  refine ⟨(.batch_in_flight, .batch_in_flight), ?_, by decide⟩
  exact Relation.ReflTransGen.tail
    (Relation.ReflTransGen.tail
      (Relation.ReflTransGen.tail
        (Relation.ReflTransGen.tail
          (Relation.ReflTransGen.tail
            (Relation.ReflTransGen.tail Relation.ReflTransGen.refl
              (PairStep.left PhaseStep.start))
            (PairStep.left PhaseStep.initial_done))
          (PairStep.left PhaseStep.issue_batch))
        (PairStep.right PhaseStep.start))
      (PairStep.right PhaseStep.initial_done))
    (PairStep.right PhaseStep.issue_batch)

/-- Claim C7 (code bug): `start_refresh_task` overwrites the task
reference without cancelling the running loop, so a second start leaves
two `_periodic_refresh` loops running concurrently, and a subsequent stop
cancels only the newest one — the first loop is leaked. -/
theorem C7_double_start_leaks_loop :
    (start_refresh_task (start_refresh_task initEngine)).running_loops.length
      = 2 ∧
    (stop_refresh_task
      (start_refresh_task (start_refresh_task initEngine))).running_loops
      = [0] := by
  decide

/-- Claim C8, counterexample: on a published snapshot holding a job whose
number is the empty string (and whose name is absent), the query `""` is
contained in that job number, yet `search` does not return the job —
Python's truthiness test skips empty-string fields.  So search does not
return exactly the jobs whose number or name contains the query. -/
theorem C8_counterexample :
    ¬ (∀ j ∈ dictValues (publish 0 [jobEmptyNum] initCache).jobs,
        claimMatches "" j = true →
          j ∈ search (publish 0 [jobEmptyNum] initCache) "") := by
  decide

/-- Claim C8 as amended: `search q` returns exactly those cached jobs
whose present-and-non-empty job number or present-and-non-empty display
name contains `q` as a case-insensitive substring; and against the empty
(never refreshed) cache every query returns the empty list, never an
error. -/
theorem C8_amended_search_exact (st : JobCacheState) (q : String) :
    (∀ j, j ∈ search st q ↔
      j ∈ dictValues st.jobs ∧ amendedMatches q j = true) ∧
    search initCache q = [] := by
  constructor
  · intro j
    rw [mem_search_iff, searchPred_eq_amendedMatches]
  · rfl

/-- Claim C9 (code bug): `search_jobs_cached` (client.py line 119) returns
`self.job_cache.search(query)` without awaiting it, so awaiting the facade
yields the coroutine object produced by `search`, not the job list its
`List[Job]` annotation declares; only awaiting that returned coroutine a
second time produces the list the cache's `search` computes. -/
theorem C9_facade_returns_unawaited_coroutine :
    (search_jobs_cached stPop "alp").run = searchAsync stPop "alp" ∧
    ((search_jobs_cached stPop "alp").run).run = search stPop "alp" ∧
    search stPop "alp" = [jobA] := by
  exact ⟨rfl, rfl, by decide⟩

/-- Claim C10: `search` never returns a job whose number and display name
are both absent; such a job, although present in `by_id`, is reachable
through `get_by_id` but through no search query. -/
theorem C10_nameless_numberless_unreachable_by_search :
    (∀ st q j, j ∈ search st q →
      (j.job_number ≠ none ∨ j.job_name ≠ none)) ∧
    (∀ st j, j.job_number = none → j.job_name = none →
      dictGet st.jobs j.id = some j →
        get_by_id st j.id = some j ∧ ∀ q, j ∉ search st q) := by
  have key : ∀ st q j, j ∈ search st q →
      ¬ (j.job_number = none ∧ j.job_name = none) := by
    intro st q j hj hcontra
    have h2 := (mem_search_iff st q j).mp hj |>.2
    rw [searchPred_both_none (strLower q) j hcontra.1 hcontra.2] at h2
    exact Bool.false_ne_true h2
  constructor
  · intro st q j hj
    by_contra hc
    push_neg at hc
    exact key st q j hj ⟨hc.1, hc.2⟩
  · intro st j h1 h2 h3
    exact ⟨h3, fun q hq => key st q j hq ⟨h1, h2⟩⟩

/-- Witness for C10: on a published snapshot holding `jobBare` (no number,
no name), `get_by_id` finds it while `search ""` does not return it. -/
theorem C10_witness :
    get_by_id (publish 0 [jobBare] initCache) jobBare.id = some jobBare ∧
    jobBare ∉ search (publish 0 [jobBare] initCache) "" := by
  have h := C10_nameless_numberless_unreachable_by_search.2
    (publish 0 [jobBare] initCache) jobBare rfl rfl (by decide)
  exact ⟨h.1, h.2 ""⟩
